import Mathlib

/-!
# goreplay `plugins.go`: plugin registration

A shallow embedding of `extractLimitOptions`, `registerPlugin` and `InitPlugins`
from `plugins.go`, and the properties of the option codec, of the registration
table and of the population pass.

Go strings are modelled as lists of characters. The only separator and prefix
the file uses (`"|"`, `"s3://"`) are ASCII, so splitting by character and
splitting by byte agree.
-/

namespace Gor

/-- A Go `string`. -/
abbrev GoString := List Char

/-- A run-time panic of the Go program. -/
inductive Panic where
  /-- Slice index out of range. -/
  | indexOutOfRange
  /-- The reflective call of the constructor panicked: wrong arity or argument type, no
  result value, or a panic inside the constructor. -/
  | call
  /-- A type assertion `x.(T)` without the comma-ok form failed. -/
  | typeAssertion
  deriving DecidableEq, Repr

/-- Go's `strings.Split(s, sep)` for a one-character separator: the substrings of `s`
between the occurrences of `sep`, so the result has one more element than `s` has
occurrences of `sep`, and is `[s]` when `s` has none (also for the empty `s`). -/
def Split (sep : Char) : GoString → List GoString
  | [] => [[]]
  | c :: cs =>
    if c = sep then [] :: Split sep cs
    else
      match Split sep cs with
      | [] => [[c]]
      | seg :: segs => (c :: seg) :: segs

/-- Go's `strings.HasPrefix(s, prefix)`. -/
def HasPrefix (s pre : GoString) : Bool :=
  pre.isPrefixOf s

/-- Go's slice indexing `a[i]`, which panics when `i` is out of range. -/
def index {α : Type} (a : List α) (i : Nat) : Except Panic α :=
  match a.get? i with
  | some x => .ok x
  | none => .error .indexOutOfRange

/-- `extractLimitOptions` of `plugins.go`: the address and the limit of an option string. -/
def extractLimitOptions (options : GoString) : Except Panic (GoString × GoString) :=
  let split := Split '|' options
  if split.length > 1 then do
    let s0 ← index split 0
    let s1 ← index split 1
    pure (s0, s1)
  else do
    let s0 ← index split 0
    pure (s0, [])

/-! ## Values, plugins and the registry -/

/-- The capture engine constants `EnginePcap`, `EngineRawSocket` and `EnginePcapFile`
(declared outside `plugins.go`). -/
inductive Engine where
  | EnginePcap
  | EngineRawSocket
  | EnginePcapFile
  deriving DecidableEq, Repr

/-- The configuration of the Kafka input and output: the two fields `plugins.go` reads. -/
structure KafkaConfig where
  host : GoString
  topic : GoString
  deriving DecidableEq, Repr

/-- The shared HTTP output configuration: the field `plugins.go` writes. -/
structure HTTPOutputConfig where
  OriginalHost : Bool
  deriving DecidableEq, Repr

/-- A header rewrite rule, an element of `Settings.modifierConfig.headers`. -/
structure HeaderRule where
  Name : GoString
  Value : GoString
  deriving DecidableEq, Repr

/-- The fields of the global `Settings` that `plugins.go` takes the address of. -/
inductive ConfigRef where
  | InputTCPConfig
  | OutputTCPConfig
  | OutputFileConfig
  | OutputHTTPConfig
  | OutputBinaryConfig
  | outputKafkaConfig
  | inputKafkaConfig
  deriving DecidableEq, Repr

/-- What a pointer into `Settings` points at, at the moment it is passed. -/
inductive Pointee where
  | http (config : HTTPOutputConfig)
  | kafka (config : KafkaConfig)
  /-- A configuration struct none of whose fields `plugins.go` reads. -/
  | unread
  deriving DecidableEq, Repr

/-- A value boxed in `interface{}`, as `registerPlugin` receives its options and as
`reflect.ValueOf` hands them to the constructor. -/
inductive Arg where
  /-- The nil interface; `reflect.ValueOf(nil)` is the invalid `Value`. -/
  | nil
  | str (s : GoString)
  | bool (b : Bool)
  /-- An integer-kinded value (`InputRAWBufferSize`, `InputRAWExpire`). -/
  | int (n : Int)
  | engine (e : Engine)
  /-- The pointer `&Settings.<field>` together with the value it points at. -/
  | ptr (field : ConfigRef) (pointee : Pointee)
  deriving DecidableEq, Repr

/-- The plugin constructors `InitPlugins` passes to `registerPlugin`. -/
inductive Ctor where
  | NewDummyInput
  | NewDummyOutput
  | NewNullOutput
  | NewRAWInput
  | NewTCPInput
  | NewTCPOutput
  | NewFileInput
  | NewS3Output
  | NewFileOutput
  | NewHTTPInput
  | NewHTTPOutput
  | NewBinaryOutput
  | NewKafkaOutput
  | NewKafkaInput
  deriving DecidableEq, Repr

/-- A plugin object: its identity, and whether its dynamic type implements `io.Reader`
and `io.Writer` (what the comma-ok assertions `plugin.(io.Reader)` and
`plugin.(io.Writer)` report). -/
structure Plugin where
  id : Nat
  isReader : Bool
  isWriter : Bool
  deriving DecidableEq, Repr

/-- The struct `InOutPlugins`. -/
structure InOutPlugins where
  Inputs : List Plugin
  Outputs : List Plugin
  All : List Plugin
  deriving DecidableEq, Repr

/-- One reflective call `vc.Call(vo)`: the constructor and the arguments it received. -/
structure Call where
  constructor : Ctor
  args : List Arg
  deriving DecidableEq, Repr

/-- The state `registerPlugin` works on: the global `plugins`, and the log of the
constructor calls made so far. -/
structure World where
  plugins : InOutPlugins
  calls : List Call
  deriving DecidableEq, Repr

/-- The freshly allocated registry `new(InOutPlugins)`, with no call made yet. -/
def World.empty : World :=
  { plugins := { Inputs := [], Outputs := [], All := [] }, calls := [] }

/-- Modelled from the spec: `NewLimiter` is not part of `plugins.go`. The decorator takes a
plugin and a limit and returns a wrapper "preserving the original's capability set", so
the wrapper of a reader is a reader and the wrapper of a writer is a writer. -/
structure LimiterDecorator where
  NewLimiter : Plugin → GoString → Plugin
  reader : ∀ p limit, p.isReader = true → (NewLimiter p limit).isReader = true
  writer : ∀ p limit, p.isWriter = true → (NewLimiter p limit).isWriter = true

/-- The code `plugins.go` calls but does not define. The constructors are taken as they
are given: the outcome of a constructor call is a function of the constructor and of the
arguments it receives, pointer arguments counted with what they point at. -/
structure Env where
  /-- The name `reflect` prints for the type of a non-string value. -/
  typeString : Arg → GoString
  /-- The outcome of `vc.Call(vo)[0].Interface()`: the plugin the constructor returns for
  these arguments, or a panic. -/
  construct : Ctor → List Arg → Except Panic Plugin
  limiter : LimiterDecorator

/-- Go's `reflect.Value.String()`: the string itself for a string, and otherwise, without
a panic, the text `<T Value>`. -/
def reflectString (env : Env) : Arg → GoString
  | .str s => s
  | .nil => "<invalid Value>".toList
  | a => "<".toList ++ env.typeString a ++ " Value>".toList

/-- The assertion `pluginWrapper.(io.Reader)`, which panics on a value that is no reader. -/
def assertReader (p : Plugin) : Except Panic Plugin :=
  if p.isReader then .ok p else .error .typeAssertion

/-- The assertion `pluginWrapper.(io.Writer)`, which panics on a value that is no writer. -/
def assertWriter (p : Plugin) : Except Panic Plugin :=
  if p.isWriter then .ok p else .error .typeAssertion

/-- Lines 38 to 53 of `registerPlugin`: the argument list `vo` handed to the constructor,
and the limit. With no option the limit stays the zero value `""`. -/
def prepareOptions (env : Env) (options : List Arg) : Except Panic (List Arg × GoString) :=
  match options with
  | [] => pure ([], [])
  | v0 :: rest => do
    let (path, limit) ← extractLimitOptions (reflectString env v0)
    pure (Arg.str path :: rest, limit)

/-- `registerPlugin` of `plugins.go`. The call of the constructor is entered in the log. -/
def registerPlugin (env : Env) (constructor : Ctor) (options : List Arg) (w : World) :
    Except Panic World := do
  let (vo, limit) ← prepareOptions env options
  let plugin ← env.construct constructor vo
  let calls := w.calls ++ [{ constructor := constructor, args := vo }]
  let pluginWrapper := if limit ≠ [] then env.limiter.NewLimiter plugin limit else plugin
  let isR := plugin.isReader
  let isW := plugin.isWriter
  let mut plugins := w.plugins
  if isR && !isW then
    let r ← assertReader pluginWrapper
    plugins := { plugins with Inputs := plugins.Inputs ++ [r] }
  if isW then
    let x ← assertWriter pluginWrapper
    plugins := { plugins with Outputs := plugins.Outputs ++ [x] }
  plugins := { plugins with All := plugins.All ++ [plugin] }
  pure { plugins := plugins, calls := calls }

/-! ## The population pass -/

/-- The fields of the global `Settings` that `plugins.go` uses; the declaration itself is
outside `plugins.go`. The option lists hold strings: `InitPlugins` ranges over them, hands
the entries to `registerPlugin` as first option, and tests those of `outputFile` with
`strings.HasPrefix`. The configuration structs it only takes the address of, and never
reads, have no field here. -/
structure AppSettings where
  inputDummy : List GoString
  outputDummy : List GoString
  OutputStdout : Bool
  OutputNull : Bool
  InputRAWEngine : GoString
  inputRAW : List GoString
  InputRAWTrackResponse : Bool
  InputRAWExpire : Int
  InputRAWRealIPHeader : GoString
  InputRAWProtocol : GoString
  InputRAWBpfFilter : GoString
  InputRAWTimestampType : GoString
  InputRAWBufferSize : Int
  inputTCP : List GoString
  outputTCP : List GoString
  inputFile : List GoString
  InputFileLoop : Bool
  outputFile : List GoString
  inputHTTP : List GoString
  /-- The field `Settings.modifierConfig.headers`. -/
  modifierConfigHeaders : List HeaderRule
  OutputHTTPConfig : HTTPOutputConfig
  outputHTTP : List GoString
  outputBinary : List GoString
  outputKafkaConfig : KafkaConfig
  inputKafkaConfig : KafkaConfig
  deriving DecidableEq, Repr

/-- The expression `&Settings.<field>`: the pointer, with what it points at now. -/
def addressOf (Settings : AppSettings) : ConfigRef → Arg
  | .OutputHTTPConfig => .ptr .OutputHTTPConfig (.http Settings.OutputHTTPConfig)
  | .outputKafkaConfig => .ptr .outputKafkaConfig (.kafka Settings.outputKafkaConfig)
  | .inputKafkaConfig => .ptr .inputKafkaConfig (.kafka Settings.inputKafkaConfig)
  | field => .ptr field .unread

/-- A loop `for _, x := range xs { body }` whose body may panic. -/
def forRange {α σ : Type} (xs : List α) (body : α → σ → Except Panic σ) (w : σ) :
    Except Panic σ :=
  match xs with
  | [] => pure w
  | x :: rest => do
    let w ← body x w
    forRange rest body w

/-- Lines 138 to 143 of `InitPlugins`: the loop over the header rules, which sets
`OriginalHost` at the first rule named `Host` and breaks. -/
def hostHeaderLoop (Settings : AppSettings) : List HeaderRule → AppSettings
  | [] => Settings
  | header :: rest =>
    if header.Name = "Host".toList then
      { Settings with OutputHTTPConfig := { Settings.OutputHTTPConfig with OriginalHost := true } }
    else hostHeaderLoop Settings rest

/-- `InitPlugins` of `plugins.go`, on the global `Settings` and the global `plugins`. The
mutex makes the body run alone; the model is that of one such run. -/
def InitPlugins (env : Env) (Settings : AppSettings) (plugins : World) :
    Except Panic (AppSettings × World) := do
  let plugins ← forRange Settings.inputDummy
    (fun options => registerPlugin env .NewDummyInput [.str options]) plugins
  let plugins ← forRange Settings.outputDummy
    (fun _ => registerPlugin env .NewDummyOutput []) plugins
  let plugins ← if Settings.OutputStdout then registerPlugin env .NewDummyOutput [] plugins
    else pure plugins
  let plugins ← if Settings.OutputNull then registerPlugin env .NewNullOutput [] plugins
    else pure plugins
  let engine :=
    if Settings.InputRAWEngine = "raw_socket".toList then Engine.EngineRawSocket
    else if Settings.InputRAWEngine = "pcap_file".toList then Engine.EnginePcapFile
    else Engine.EnginePcap
  let plugins ← forRange Settings.inputRAW
    (fun options => registerPlugin env .NewRAWInput
      [.str options, .engine engine, .bool Settings.InputRAWTrackResponse,
       .int Settings.InputRAWExpire, .str Settings.InputRAWRealIPHeader,
       .str Settings.InputRAWProtocol, .str Settings.InputRAWBpfFilter,
       .str Settings.InputRAWTimestampType, .int Settings.InputRAWBufferSize]) plugins
  let plugins ← forRange Settings.inputTCP
    (fun options => registerPlugin env .NewTCPInput
      [.str options, addressOf Settings .InputTCPConfig]) plugins
  let plugins ← forRange Settings.outputTCP
    (fun options => registerPlugin env .NewTCPOutput
      [.str options, addressOf Settings .OutputTCPConfig]) plugins
  let plugins ← forRange Settings.inputFile
    (fun options => registerPlugin env .NewFileInput
      [.str options, .bool Settings.InputFileLoop]) plugins
  let plugins ← forRange Settings.outputFile
    (fun path =>
      if HasPrefix path "s3://".toList then
        registerPlugin env .NewS3Output [.str path, addressOf Settings .OutputFileConfig]
      else
        registerPlugin env .NewFileOutput [.str path, addressOf Settings .OutputFileConfig])
    plugins
  let plugins ← forRange Settings.inputHTTP
    (fun options => registerPlugin env .NewHTTPInput [.str options]) plugins
  let Settings := hostHeaderLoop Settings Settings.modifierConfigHeaders
  let plugins ← forRange Settings.outputHTTP
    (fun options => registerPlugin env .NewHTTPOutput
      [.str options, addressOf Settings .OutputHTTPConfig]) plugins
  let plugins ← forRange Settings.outputBinary
    (fun options => registerPlugin env .NewBinaryOutput
      [.str options, addressOf Settings .OutputBinaryConfig]) plugins
  let plugins ←
    if Settings.outputKafkaConfig.host ≠ [] ∧ Settings.outputKafkaConfig.topic ≠ [] then
      registerPlugin env .NewKafkaOutput [.str [], addressOf Settings .outputKafkaConfig] plugins
    else pure plugins
  let plugins ←
    if Settings.inputKafkaConfig.host ≠ [] ∧ Settings.inputKafkaConfig.topic ≠ [] then
      registerPlugin env .NewKafkaInput [.str [], addressOf Settings .inputKafkaConfig] plugins
    else pure plugins
  pure (Settings, plugins)

/-! ## Derived notions used to state the properties -/

/-- The text of `s` before its first `|`, all of `s` when it has none. -/
def beforeBar (s : GoString) : GoString :=
  s.takeWhile (fun c => c != '|')

/-- The text of `s` after its first `|`, empty when it has none. -/
def afterBar (s : GoString) : GoString :=
  (s.dropWhile (fun c => c != '|')).drop 1

/-- The argument list the constructor receives for the options of a `registerPlugin` call. -/
def callArgs (env : Env) : List Arg → List Arg
  | [] => []
  | v0 :: rest => Arg.str (beforeBar (reflectString env v0)) :: rest

/-- The limit of a `registerPlugin` call. -/
def callLimit (env : Env) : List Arg → GoString
  | [] => []
  | v0 :: _ => beforeBar (afterBar (reflectString env v0))

/-- The handle `registerPlugin` files under `Inputs` or `Outputs` (lines 57 to 63). -/
def wrapperOf (env : Env) (plugin : Plugin) (limit : GoString) : Plugin :=
  if limit ≠ [] then env.limiter.NewLimiter plugin limit else plugin

/-- The registry `w` followed by the entries of `d`. -/
def World.append (w d : World) : World :=
  { plugins := { Inputs := w.plugins.Inputs ++ d.plugins.Inputs,
                 Outputs := w.plugins.Outputs ++ d.plugins.Outputs,
                 All := w.plugins.All ++ d.plugins.All },
    calls := w.calls ++ d.calls }

/-- The `registerPlugin` calls of one `InitPlugins` pass, in program order: the constructor
and the options of each. -/
def plan (Settings : AppSettings) : List (Ctor × List Arg) :=
  let engine :=
    if Settings.InputRAWEngine = "raw_socket".toList then Engine.EngineRawSocket
    else if Settings.InputRAWEngine = "pcap_file".toList then Engine.EnginePcapFile
    else Engine.EnginePcap
  let fixed := hostHeaderLoop Settings Settings.modifierConfigHeaders
  Settings.inputDummy.map (fun options => (Ctor.NewDummyInput, [Arg.str options]))
  ++ Settings.outputDummy.map (fun _ => (Ctor.NewDummyOutput, []))
  ++ (if Settings.OutputStdout then [(Ctor.NewDummyOutput, [])] else [])
  ++ (if Settings.OutputNull then [(Ctor.NewNullOutput, [])] else [])
  ++ Settings.inputRAW.map (fun options => (Ctor.NewRAWInput,
      [.str options, .engine engine, .bool Settings.InputRAWTrackResponse,
       .int Settings.InputRAWExpire, .str Settings.InputRAWRealIPHeader,
       .str Settings.InputRAWProtocol, .str Settings.InputRAWBpfFilter,
       .str Settings.InputRAWTimestampType, .int Settings.InputRAWBufferSize]))
  ++ Settings.inputTCP.map (fun options =>
      (Ctor.NewTCPInput, [.str options, addressOf Settings .InputTCPConfig]))
  ++ Settings.outputTCP.map (fun options =>
      (Ctor.NewTCPOutput, [.str options, addressOf Settings .OutputTCPConfig]))
  ++ Settings.inputFile.map (fun options =>
      (Ctor.NewFileInput, [.str options, .bool Settings.InputFileLoop]))
  ++ Settings.outputFile.map (fun path =>
      (if HasPrefix path "s3://".toList then Ctor.NewS3Output else Ctor.NewFileOutput,
       [.str path, addressOf Settings .OutputFileConfig]))
  ++ Settings.inputHTTP.map (fun options => (Ctor.NewHTTPInput, [Arg.str options]))
  ++ fixed.outputHTTP.map (fun options =>
      (Ctor.NewHTTPOutput, [.str options, addressOf fixed .OutputHTTPConfig]))
  ++ fixed.outputBinary.map (fun options =>
      (Ctor.NewBinaryOutput, [.str options, addressOf fixed .OutputBinaryConfig]))
  ++ (if fixed.outputKafkaConfig.host ≠ [] ∧ fixed.outputKafkaConfig.topic ≠ [] then
        [(Ctor.NewKafkaOutput, [.str [], addressOf fixed .outputKafkaConfig])] else [])
  ++ (if fixed.inputKafkaConfig.host ≠ [] ∧ fixed.inputKafkaConfig.topic ≠ [] then
        [(Ctor.NewKafkaInput, [.str [], addressOf fixed .inputKafkaConfig])] else [])

/-- The `registerPlugin` calls of a list, one after the other. -/
def registerAll (env : Env) (calls : List (Ctor × List Arg)) (w : World) : Except Panic World :=
  forRange calls (fun ca => registerPlugin env ca.1 ca.2) w

/-! ## A sample environment and configuration -/

/-- A decorator that gives the wrapper a new identity and the capabilities of the plugin. -/
def sampleLimiter : LimiterDecorator where
  NewLimiter := fun p _ => { p with id := p.id + 1000 }
  reader := fun _ _ h => h
  writer := fun _ _ h => h

/-- Constructors that always return: inputs are readers, outputs are writers, the HTTP
output is both, and the null output is neither. -/
def sampleEnv : Env where
  typeString := fun _ => "T".toList
  construct := fun c _ =>
    match c with
    | .NewDummyInput => .ok { id := 1, isReader := true, isWriter := false }
    | .NewDummyOutput => .ok { id := 2, isReader := false, isWriter := true }
    | .NewNullOutput => .ok { id := 3, isReader := false, isWriter := false }
    | .NewRAWInput => .ok { id := 4, isReader := true, isWriter := false }
    | .NewTCPInput => .ok { id := 5, isReader := true, isWriter := false }
    | .NewTCPOutput => .ok { id := 6, isReader := false, isWriter := true }
    | .NewFileInput => .ok { id := 7, isReader := true, isWriter := false }
    | .NewS3Output => .ok { id := 8, isReader := false, isWriter := true }
    | .NewFileOutput => .ok { id := 9, isReader := false, isWriter := true }
    | .NewHTTPInput => .ok { id := 10, isReader := true, isWriter := false }
    | .NewHTTPOutput => .ok { id := 11, isReader := true, isWriter := true }
    | .NewBinaryOutput => .ok { id := 12, isReader := false, isWriter := true }
    | .NewKafkaOutput => .ok { id := 13, isReader := false, isWriter := true }
    | .NewKafkaInput => .ok { id := 14, isReader := true, isWriter := false }
  limiter := sampleLimiter

/-- A configuration with a raw input, two file outputs, a limited HTTP output, a `Host`
rule in second place, and a Kafka output but no Kafka input. -/
def sampleSettings : AppSettings where
  inputDummy := []
  outputDummy := []
  OutputStdout := false
  OutputNull := true
  InputRAWEngine := "libpcap".toList
  inputRAW := [":80".toList]
  InputRAWTrackResponse := false
  InputRAWExpire := 2000
  InputRAWRealIPHeader := []
  InputRAWProtocol := "http".toList
  InputRAWBpfFilter := []
  InputRAWTimestampType := []
  InputRAWBufferSize := 0
  inputTCP := []
  outputTCP := []
  inputFile := []
  InputFileLoop := false
  outputFile := ["s3://b/a.gor".toList, "/tmp/b.gor|10%".toList]
  inputHTTP := []
  modifierConfigHeaders := [{ Name := "X-Id".toList, Value := "1".toList },
                            { Name := "Host".toList, Value := "example.com".toList }]
  OutputHTTPConfig := { OriginalHost := false }
  outputHTTP := ["http://staging|5".toList]
  outputBinary := []
  outputKafkaConfig := { host := "broker:9092".toList, topic := "gor".toList }
  inputKafkaConfig := { host := [], topic := "gor".toList }

/-- The value of `Settings` after a pass over `sampleSettings`. -/
def sampleSettingsAfter : AppSettings :=
  { sampleSettings with OutputHTTPConfig := { OriginalHost := true } }

/-- The registry and the log after one pass over `sampleSettings` from the empty registry. -/
def sampleAfter : World where
  plugins :=
    { Inputs := [{ id := 4, isReader := true, isWriter := false }],
      Outputs := [{ id := 8, isReader := false, isWriter := true },
                  { id := 1009, isReader := false, isWriter := true },
                  { id := 1011, isReader := true, isWriter := true },
                  { id := 13, isReader := false, isWriter := true }],
      All := [{ id := 3, isReader := false, isWriter := false },
              { id := 4, isReader := true, isWriter := false },
              { id := 8, isReader := false, isWriter := true },
              { id := 9, isReader := false, isWriter := true },
              { id := 11, isReader := true, isWriter := true },
              { id := 13, isReader := false, isWriter := true }] }
  calls :=
    [{ constructor := .NewNullOutput, args := [] },
     { constructor := .NewRAWInput,
       args := [.str ":80".toList, .engine .EnginePcap, .bool false, .int 2000, .str [],
                .str "http".toList, .str [], .str [], .int 0] },
     { constructor := .NewS3Output,
       args := [.str "s3://b/a.gor".toList, .ptr .OutputFileConfig .unread] },
     { constructor := .NewFileOutput,
       args := [.str "/tmp/b.gor".toList, .ptr .OutputFileConfig .unread] },
     { constructor := .NewHTTPOutput,
       args := [.str "http://staging".toList,
                .ptr .OutputHTTPConfig (.http { OriginalHost := true })] },
     { constructor := .NewKafkaOutput,
       args := [.str [], .ptr .outputKafkaConfig
                  (.kafka { host := "broker:9092".toList, topic := "gor".toList })] }]

/-- The options of the HTTP output registration of the sample pass. -/
def sampleOptions : List Arg :=
  [.str "http://staging|5".toList, .ptr .OutputHTTPConfig (.http { OriginalHost := true })]

/-! ## The option codec -/

theorem Split_of_not_mem (sep : Char) (s : GoString) (h : sep ∉ s) : Split sep s = [s] := by
  induction s with
  | nil => rfl
  | cons c cs ih =>
    have hc : c ≠ sep := fun e => h (by simp [e])
    have hcs : sep ∉ cs := fun e => h (by simp [e])
    simp [Split, hc, ih hcs]

theorem Split_append_sep (sep : Char) (a rest : GoString) (h : sep ∉ a) :
    Split sep (a ++ sep :: rest) = a :: Split sep rest := by
  induction a with
  | nil => simp [Split]
  | cons c cs ih =>
    have hc : c ≠ sep := fun e => h (by simp [e])
    have hcs : sep ∉ cs := fun e => h (by simp [e])
    simp [Split, hc, ih hcs]

theorem Split_ne_nil (sep : Char) (s : GoString) : Split sep s ≠ [] := by
  induction s with
  | nil => simp [Split]
  | cons c cs ih =>
    unfold Split
    split
    · simp
    · split <;> simp

/-- No segment of `Split sep s` holds the separator. -/
theorem Split_segments (sep : Char) (s : GoString) : ∀ seg ∈ Split sep s, sep ∉ seg := by
  induction s with
  | nil => simp [Split]
  | cons c cs ih =>
    unfold Split
    split
    · intro seg hseg
      rcases List.mem_cons.mp hseg with rfl | hseg
      · simp
      · exact ih seg hseg
    · next hc =>
      split
      · next h0 => exact absurd h0 (Split_ne_nil sep cs)
      · next seg0 segs h0 =>
        rw [h0] at ih
        intro seg hseg
        rcases List.mem_cons.mp hseg with rfl | hseg
        · intro hmem
          rcases List.mem_cons.mp hmem with rfl | hmem
          · exact hc rfl
          · exact ih seg0 (List.mem_cons_self _ _) hmem
        · exact ih seg (List.mem_cons_of_mem _ hseg)

/-- Joining the segments of `Split sep s` with the separator gives `s` back. -/
theorem Split_join (sep : Char) (s : GoString) : [sep].intercalate (Split sep s) = s := by
  induction s with
  | nil => simp [Split, List.intercalate]
  | cons c cs ih =>
    unfold Split
    split
    · next hc =>
      subst hc
      cases h0 : Split c cs with
      | nil => exact absurd h0 (Split_ne_nil c cs)
      | cons seg0 segs =>
        rw [h0] at ih
        simp only [List.intercalate, List.intersperse, List.flatten] at ih ⊢
        simp [ih]
    · split
      · next h0 => exact absurd h0 (Split_ne_nil sep cs)
      · next seg0 segs h0 =>
        rw [h0] at ih
        cases segs with
        | nil =>
          simp only [List.intercalate, List.intersperse, List.flatten] at ih ⊢
          simpa using ih
        | cons seg1 segs1 =>
          simp only [List.intercalate, List.intersperse, List.flatten] at ih ⊢
          simpa using ih

/-- The list `Split sep s` has one more element than `s` has separators. -/
theorem Split_length (sep : Char) (s : GoString) :
    (Split sep s).length = s.count sep + 1 := by
  induction s with
  | nil => simp [Split]
  | cons c cs ih =>
    unfold Split
    split
    · next hc =>
      subst hc
      simp [ih]
    · next hc =>
      split
      · next h0 => exact absurd h0 (Split_ne_nil sep cs)
      · next seg0 segs h0 =>
        rw [h0] at ih
        have hne : (c == sep) = false := by simpa using hc
        simp only [List.length_cons] at ih ⊢
        rw [List.count_cons, hne]
        simpa using ih

theorem beforeBar_not_mem (s : GoString) : '|' ∉ beforeBar s := by
  induction s with
  | nil => simp [beforeBar]
  | cons c cs ih =>
    by_cases hc : c = '|'
    · simp [beforeBar, hc]
    · simp only [beforeBar] at ih
      simp [beforeBar, List.takeWhile_cons, hc, ih, Ne.symm hc]

theorem Split_eq_beforeBar (s : GoString) :
    Split '|' s = beforeBar s :: (if '|' ∈ s then Split '|' (afterBar s) else []) := by
  induction s with
  | nil => simp [Split, beforeBar]
  | cons c cs ih =>
    by_cases hc : c = '|'
    · simp [Split, beforeBar, afterBar, hc]
    · have hc2 : ¬ ('|' = c) := fun e => hc e.symm
      simp only [beforeBar, afterBar] at ih
      by_cases hm : '|' ∈ cs
      · simp [Split, beforeBar, afterBar, hc, hc2, ih, hm, List.takeWhile_cons,
          List.dropWhile_cons]
      · simp [Split, beforeBar, afterBar, hc, hc2, ih, hm, List.takeWhile_cons,
          List.dropWhile_cons]

theorem extractLimitOptions_eq (s : GoString) :
    extractLimitOptions s = .ok (beforeBar s, beforeBar (afterBar s)) := by
  unfold extractLimitOptions
  rw [Split_eq_beforeBar s]
  by_cases hm : '|' ∈ s
  · rw [if_pos hm, Split_eq_beforeBar (afterBar s)]
    simp [index, bind, Except.bind, pure, Except.pure]
  · have h2 : afterBar s = [] := by
      have : List.dropWhile (fun c => c != '|') s = [] := by
        rw [List.dropWhile_eq_nil_iff]
        intro x hx
        have : x ≠ '|' := fun e => hm (e ▸ hx)
        simpa using this
      simp [afterBar, this]
    simp [hm, h2, beforeBar, index, bind, Except.bind, pure, Except.pure]

/-- Claim C1: for a string without `|`, the empty string included, `extractLimitOptions`
does not fail and returns the whole string as the address and the empty limit. -/
theorem extractLimitOptions_without_delimiter (s : GoString) (h : '|' ∉ s) :
    extractLimitOptions s = .ok (s, []) := by
  simp [extractLimitOptions, Split_of_not_mem _ _ h, index, bind, Except.bind, pure,
    Except.pure]

theorem extractLimitOptions_without_delimiter_witness :
    '|' ∉ ":8080".toList ∧ extractLimitOptions ":8080".toList = .ok (":8080".toList, []) :=
  ⟨by decide, extractLimitOptions_without_delimiter ":8080".toList (by decide)⟩

/-- Claim C2: for `a` and `b` without `|` and `t` empty or starting with `|`,
`extractLimitOptions (a + "|" + b + t)` returns `(a, b)`: the text before the first
delimiter, the text between the first and the second, and nothing of what follows. -/
theorem extractLimitOptions_first_two_segments (a b t : GoString) (ha : '|' ∉ a)
    (hb : '|' ∉ b) (ht : t = [] ∨ ∃ u, t = '|' :: u) :
    extractLimitOptions (a ++ ['|'] ++ b ++ t) = .ok (a, b) := by
  have h1 : Split '|' (a ++ ['|'] ++ b ++ t) = a :: Split '|' (b ++ t) := by
    simpa using Split_append_sep '|' a (b ++ t) ha
  unfold extractLimitOptions
  rcases ht with rfl | ⟨u, rfl⟩
  · rw [h1]
    simp [Split_of_not_mem _ _ hb, index, bind, Except.bind, pure, Except.pure]
  · rw [h1, Split_append_sep _ _ _ hb]
    simp [index, bind, Except.bind, pure, Except.pure]

theorem extractLimitOptions_first_two_segments_witness :
    extractLimitOptions "a|b|c".toList = .ok ("a".toList, "b".toList) :=
  extractLimitOptions_first_two_segments "a".toList "b".toList "|c".toList (by decide)
    (by decide) (Or.inr ⟨"c".toList, rfl⟩)

/-! ## One registration -/

theorem prepareOptions_eq (env : Env) (options : List Arg) :
    prepareOptions env options = .ok (callArgs env options, callLimit env options) := by
  cases options with
  | nil => rfl
  | cons v0 rest =>
    simp [prepareOptions, extractLimitOptions_eq, callArgs, callLimit, bind, Except.bind, pure,
      Except.pure]

theorem wrapperOf_isReader (env : Env) (plugin : Plugin) (limit : GoString)
    (h : plugin.isReader = true) : (wrapperOf env plugin limit).isReader = true := by
  unfold wrapperOf
  split
  · exact env.limiter.reader plugin limit h
  · exact h

theorem wrapperOf_isWriter (env : Env) (plugin : Plugin) (limit : GoString)
    (h : plugin.isWriter = true) : (wrapperOf env plugin limit).isWriter = true := by
  unfold wrapperOf
  split
  · exact env.limiter.writer plugin limit h
  · exact h

/-- The state after a `registerPlugin` call whose constructor returned `plugin`. -/
theorem registerPlugin_of_construct (env : Env) (c : Ctor) (options : List Arg) (w : World)
    (plugin : Plugin) (hc : env.construct c (callArgs env options) = .ok plugin) :
    registerPlugin env c options w = .ok
      { plugins :=
          { Inputs :=
              if plugin.isReader = true ∧ plugin.isWriter = false then
                w.plugins.Inputs ++ [wrapperOf env plugin (callLimit env options)]
              else w.plugins.Inputs,
            Outputs :=
              if plugin.isWriter = true then
                w.plugins.Outputs ++ [wrapperOf env plugin (callLimit env options)]
              else w.plugins.Outputs,
            All := w.plugins.All ++ [plugin] },
        calls := w.calls ++ [{ constructor := c, args := callArgs env options }] } := by
  have hR := wrapperOf_isReader env plugin (callLimit env options)
  have hW := wrapperOf_isWriter env plugin (callLimit env options)
  unfold wrapperOf at hR hW
  unfold registerPlugin wrapperOf
  simp only [prepareOptions_eq, hc, bind, Except.bind, pure, Except.pure, assertReader,
    assertWriter]
  cases hr : plugin.isReader <;> cases hw : plugin.isWriter <;> simp_all

/-- A `registerPlugin` call fails exactly as its constructor call does. -/
theorem registerPlugin_of_panic (env : Env) (c : Ctor) (options : List Arg) (w : World)
    (e : Panic) (hc : env.construct c (callArgs env options) = .error e) :
    registerPlugin env c options w = .error e := by
  unfold registerPlugin
  simp [prepareOptions_eq, hc, bind, Except.bind]

/-- Claim C3: when the constructor returns `plugin`, the `registerPlugin` call returns and
follows the registration table by the capabilities of `plugin` itself: a reader that is no
writer adds one handle to `Inputs` and leaves `Outputs`; a writer, reader or not, adds one
handle to `Outputs` and leaves `Inputs`; a plugin that is neither leaves both. -/
theorem registerPlugin_registration_table (env : Env) (c : Ctor) (options : List Arg)
    (w : World) (vo : List Arg) (limit : GoString) (plugin : Plugin)
    (hp : prepareOptions env options = .ok (vo, limit))
    (hc : env.construct c vo = .ok plugin) :
    ∃ w1, registerPlugin env c options w = .ok w1 ∧
      (plugin.isReader = true ∧ plugin.isWriter = false →
        (∃ handle, w1.plugins.Inputs = w.plugins.Inputs ++ [handle]) ∧
        w1.plugins.Outputs = w.plugins.Outputs) ∧
      (plugin.isWriter = true →
        (∃ handle, w1.plugins.Outputs = w.plugins.Outputs ++ [handle]) ∧
        w1.plugins.Inputs = w.plugins.Inputs) ∧
      (plugin.isReader = false ∧ plugin.isWriter = false →
        w1.plugins.Inputs = w.plugins.Inputs ∧ w1.plugins.Outputs = w.plugins.Outputs) := by
  rw [prepareOptions_eq] at hp
  simp only [Except.ok.injEq, Prod.mk.injEq] at hp
  obtain ⟨rfl, rfl⟩ := hp
  refine ⟨_, registerPlugin_of_construct env c options w plugin hc, ?_, ?_, ?_⟩
  · rintro ⟨hr, hw⟩
    simp [hr, hw]
  · intro hw
    simp [hw]
  · rintro ⟨hr, hw⟩
    simp [hr, hw]

theorem registerPlugin_registration_table_witness :
    prepareOptions sampleEnv sampleOptions =
      .ok ([.str "http://staging".toList,
            .ptr .OutputHTTPConfig (.http { OriginalHost := true })], "5".toList) ∧
    sampleEnv.construct .NewHTTPOutput
      [.str "http://staging".toList, .ptr .OutputHTTPConfig (.http { OriginalHost := true })] =
      .ok { id := 11, isReader := true, isWriter := true } ∧
    ∃ w1, registerPlugin sampleEnv .NewHTTPOutput sampleOptions World.empty = .ok w1 ∧
      ((true = true ∧ true = false) →
        (∃ handle, w1.plugins.Inputs = World.empty.plugins.Inputs ++ [handle]) ∧
        w1.plugins.Outputs = World.empty.plugins.Outputs) ∧
      (true = true →
        (∃ handle, w1.plugins.Outputs = World.empty.plugins.Outputs ++ [handle]) ∧
        w1.plugins.Inputs = World.empty.plugins.Inputs) ∧
      ((true = false ∧ true = false) →
        w1.plugins.Inputs = World.empty.plugins.Inputs ∧
        w1.plugins.Outputs = World.empty.plugins.Outputs) :=
  ⟨by rfl, by rfl,
    registerPlugin_registration_table sampleEnv .NewHTTPOutput sampleOptions World.empty _ _
      { id := 11, isReader := true, isWriter := true } (by rfl) (by rfl)⟩

/-- Claim C4: when the constructor returns `plugin`, the `registerPlugin` call returns with
`All` longer by one element, `plugin` itself, at the end. The handle it files is
`NewLimiter plugin limit` when the limit is not empty and `plugin` itself when it is empty,
where the limit is the second component of `extractLimitOptions` on the first option and is
empty in a call without options: a reader that is no writer has this handle appended to
`Inputs`, a writer has it appended to `Outputs`, and no other handle is appended. -/
theorem registerPlugin_all_and_handle (env : Env) (c : Ctor) (options : List Arg)
    (w : World) (vo : List Arg) (limit : GoString) (plugin : Plugin)
    (hp : prepareOptions env options = .ok (vo, limit))
    (hc : env.construct c vo = .ok plugin) :
    ∃ w1 wrapper, registerPlugin env c options w = .ok w1 ∧
      w1.plugins.All = w.plugins.All ++ [plugin] ∧
      (limit ≠ [] → wrapper = env.limiter.NewLimiter plugin limit) ∧
      (limit = [] → wrapper = plugin) ∧
      (plugin.isReader = true ∧ plugin.isWriter = false →
        w1.plugins.Inputs = w.plugins.Inputs ++ [wrapper]) ∧
      (plugin.isWriter = true → w1.plugins.Outputs = w.plugins.Outputs ++ [wrapper]) ∧
      (∀ handle,
        w1.plugins.Inputs = w.plugins.Inputs ++ [handle] ∨
          w1.plugins.Outputs = w.plugins.Outputs ++ [handle] →
        handle = wrapper) ∧
      (options = [] → limit = []) ∧
      (∀ v0 rest, options = v0 :: rest →
        ∃ path, extractLimitOptions (reflectString env v0) = .ok (path, limit) ∧
          vo = Arg.str path :: rest) := by
  rw [prepareOptions_eq] at hp
  simp only [Except.ok.injEq, Prod.mk.injEq] at hp
  obtain ⟨rfl, rfl⟩ := hp
  refine ⟨_, wrapperOf env plugin (callLimit env options),
    registerPlugin_of_construct env c options w plugin hc, rfl, ?_, ?_, ?_, ?_, ?_, ?_, ?_⟩
  · intro hl
    simp [wrapperOf, hl]
  · intro hl
    simp [wrapperOf, hl]
  · rintro ⟨hr, hw⟩
    simp [hr, hw]
  · intro hw
    simp [hw]
  · intro handle hh
    rcases hh with hh | hh
    · dsimp only at hh
      split at hh
      · exact (List.singleton_inj.mp (List.append_cancel_left hh)).symm
      · have := congrArg List.length hh
        simp at this
    · dsimp only at hh
      split at hh
      · exact (List.singleton_inj.mp (List.append_cancel_left hh)).symm
      · have := congrArg List.length hh
        simp at this
  · rintro rfl
    rfl
  · rintro v0 rest rfl
    exact ⟨beforeBar (reflectString env v0), extractLimitOptions_eq _, rfl⟩

theorem registerPlugin_all_and_handle_witness :
    prepareOptions sampleEnv [.str "/tmp/b.gor|10%".toList, .ptr .OutputFileConfig .unread] =
      .ok ([.str "/tmp/b.gor".toList, .ptr .OutputFileConfig .unread], "10%".toList) ∧
    sampleEnv.construct .NewFileOutput
      [.str "/tmp/b.gor".toList, .ptr .OutputFileConfig .unread] =
      .ok { id := 9, isReader := false, isWriter := true } ∧
    ∃ w1 wrapper, registerPlugin sampleEnv .NewFileOutput
        [.str "/tmp/b.gor|10%".toList, .ptr .OutputFileConfig .unread] World.empty = .ok w1 ∧
      w1.plugins.All =
        World.empty.plugins.All ++ [{ id := 9, isReader := false, isWriter := true }] ∧
      ("10%".toList ≠ [] → wrapper = sampleEnv.limiter.NewLimiter
        { id := 9, isReader := false, isWriter := true } "10%".toList) ∧
      ("10%".toList = [] → wrapper = { id := 9, isReader := false, isWriter := true }) ∧
      ((false = true ∧ true = false) →
        w1.plugins.Inputs = World.empty.plugins.Inputs ++ [wrapper]) ∧
      (true = true → w1.plugins.Outputs = World.empty.plugins.Outputs ++ [wrapper]) ∧
      (∀ handle,
        w1.plugins.Inputs = World.empty.plugins.Inputs ++ [handle] ∨
          w1.plugins.Outputs = World.empty.plugins.Outputs ++ [handle] →
        handle = wrapper) ∧
      (([.str "/tmp/b.gor|10%".toList, .ptr .OutputFileConfig .unread] : List Arg) = [] →
        "10%".toList = []) ∧
      (∀ v0 rest,
        ([.str "/tmp/b.gor|10%".toList, .ptr .OutputFileConfig .unread] : List Arg) =
          v0 :: rest →
        ∃ path, extractLimitOptions (reflectString sampleEnv v0) = .ok (path, "10%".toList) ∧
          ([.str "/tmp/b.gor".toList, .ptr .OutputFileConfig .unread] : List Arg) =
            Arg.str path :: rest) :=
  ⟨by rfl, by rfl,
    registerPlugin_all_and_handle sampleEnv .NewFileOutput
      [.str "/tmp/b.gor|10%".toList, .ptr .OutputFileConfig .unread] World.empty _ _
      { id := 9, isReader := false, isWriter := true } (by rfl) (by rfl)⟩

/-- Claim C5: in a `registerPlugin` call whose first option is the string `s`, the
constructor is called with the address of `extractLimitOptions s` in first place, which is
the text of `s` before its first `|` and holds no `|`, and with every other option
unchanged in its place: the call is entered so in the log when the constructor returns,
and `registerPlugin` panics as the constructor does on these arguments when it panics. -/
theorem registerPlugin_constructor_arguments (env : Env) (c : Ctor) (s : GoString)
    (rest : List Arg) (w : World) :
    ∃ path limit, extractLimitOptions s = .ok (path, limit) ∧
      path = s.takeWhile (fun ch => ch != '|') ∧ '|' ∉ path ∧
      (∀ plugin, env.construct c (Arg.str path :: rest) = .ok plugin →
        ∃ w1, registerPlugin env c (Arg.str s :: rest) w = .ok w1 ∧
          w1.calls = w.calls ++ [{ constructor := c, args := Arg.str path :: rest }]) ∧
      (∀ e, env.construct c (Arg.str path :: rest) = .error e →
        registerPlugin env c (Arg.str s :: rest) w = .error e) := by
  refine ⟨beforeBar s, beforeBar (afterBar s), extractLimitOptions_eq s, rfl,
    beforeBar_not_mem s, ?_, ?_⟩
  · intro plugin hc
    exact ⟨_, registerPlugin_of_construct env c (Arg.str s :: rest) w plugin hc, rfl⟩
  · intro e hc
    exact registerPlugin_of_panic env c (Arg.str s :: rest) w e hc

/-! ## The population pass as a list of registrations -/

theorem forRange_append {α σ : Type} (xs ys : List α) (body : α → σ → Except Panic σ) (w : σ) :
    forRange (xs ++ ys) body w = forRange xs body w >>= forRange ys body := by
  induction xs generalizing w with
  | nil => simp [forRange]
  | cons x rest ih =>
    simp only [List.cons_append, forRange, bind_assoc]
    congr 1
    funext w1
    exact ih w1

theorem forRange_map {α β σ : Type} (f : α → β) (xs : List α) (body : β → σ → Except Panic σ)
    (w : σ) : forRange (xs.map f) body w = forRange xs (fun x => body (f x)) w := by
  induction xs generalizing w with
  | nil => simp [forRange]
  | cons x rest ih =>
    simp only [List.map_cons, forRange]
    congr 1
    funext w1
    exact ih w1

theorem forRange_ite {α σ : Type} (p : Prop) [Decidable p] (x : α)
    (body : α → σ → Except Panic σ) (w : σ) :
    forRange (if p then [x] else []) body w = if p then body x w else pure w := by
  split <;> simp [forRange]

theorem ite_bind_except {σ τ : Type} (p : Prop) [Decidable p] (a b : Except Panic σ)
    (k : σ → Except Panic τ) :
    ((if p then a else b) >>= k) = if p then a >>= k else b >>= k := by
  split <;> rfl

theorem registerPlugin_ite (env : Env) (p : Prop) [Decidable p] (a b : Ctor)
    (options : List Arg) :
    registerPlugin env (if p then a else b) options =
      if p then registerPlugin env a options else registerPlugin env b options := by
  split <;> rfl

/-- One `InitPlugins` pass makes the registrations of `plan`, in order, and leaves in
`Settings` the value the header loop produced. -/
theorem InitPlugins_eq_plan (env : Env) (Settings : AppSettings) (w : World) :
    InitPlugins env Settings w =
      (registerAll env (plan Settings) w >>= fun w1 =>
        pure (hostHeaderLoop Settings Settings.modifierConfigHeaders, w1)) := by
  unfold InitPlugins plan registerAll
  simp only [forRange_append, forRange_map, forRange_ite, bind_assoc, pure_bind,
    ite_bind_except, registerPlugin_ite]

theorem World.empty_append (d : World) : World.empty.append d = d := by
  simp [World.empty, World.append]

theorem World.append_assoc (a b c : World) : (a.append b).append c = a.append (b.append c) := by
  simp [World.append]

/-- A registration depends on the registry only by appending to it. -/
theorem registerPlugin_frame (env : Env) (c : Ctor) (options : List Arg) (w : World) :
    registerPlugin env c options w =
      (registerPlugin env c options World.empty >>= fun d => pure (w.append d)) := by
  cases hc : env.construct c (callArgs env options) with
  | error e =>
    rw [registerPlugin_of_panic env c options w e hc,
      registerPlugin_of_panic env c options World.empty e hc]
    rfl
  | ok plugin =>
    rw [registerPlugin_of_construct env c options w plugin hc,
      registerPlugin_of_construct env c options World.empty plugin hc]
    simp only [bind, Except.bind, pure, Except.pure, World.append, World.empty]
    split_ifs <;> simp

theorem registerAll_frame (env : Env) (calls : List (Ctor × List Arg)) (w : World) :
    registerAll env calls w =
      (registerAll env calls World.empty >>= fun d => pure (w.append d)) := by
  induction calls generalizing w with
  | nil => simp [registerAll, forRange, World.append, World.empty]
  | cons ca rest ih =>
    simp only [registerAll, forRange] at ih ⊢
    rw [registerPlugin_frame env ca.1 ca.2 w]
    cases h1 : registerPlugin env ca.1 ca.2 World.empty with
    | error e => rfl
    | ok d1 =>
      simp only [bind, Except.bind, pure, Except.pure] at ih ⊢
      rw [ih (w.append d1), ih d1]
      cases h2 : forRange rest (fun ca => registerPlugin env ca.1 ca.2) World.empty with
      | error e => rfl
      | ok d2 => simp [World.append_assoc]

/-- The log after the registrations of a list: one call for each, in order. -/
theorem registerAll_calls (env : Env) (calls : List (Ctor × List Arg)) (w w1 : World)
    (h : registerAll env calls w = .ok w1) :
    w1.calls = w.calls ++
      calls.map (fun ca => { constructor := ca.1, args := callArgs env ca.2 : Call }) := by
  induction calls generalizing w with
  | nil =>
    simp only [registerAll, forRange, pure, Except.pure] at h
    cases h
    simp
  | cons ca rest ih =>
    simp only [registerAll, forRange] at ih h
    cases hc : env.construct ca.1 (callArgs env ca.2) with
    | error e =>
      rw [registerPlugin_of_panic env ca.1 ca.2 w e hc] at h
      cases h
    | ok plugin =>
      rw [registerPlugin_of_construct env ca.1 ca.2 w plugin hc] at h
      simp only [bind, Except.bind] at h
      rw [ih _ h]
      simp

theorem hostHeaderLoop_eq (Settings : AppSettings) (headers : List HeaderRule) :
    hostHeaderLoop Settings headers =
      if ∃ r ∈ headers, r.Name = "Host".toList then
        { Settings with OutputHTTPConfig := { OriginalHost := true } }
      else Settings := by
  induction headers with
  | nil => simp [hostHeaderLoop]
  | cons r rest ih =>
    by_cases hr : r.Name = "Host".toList
    · have key : ∃ x ∈ r :: rest, x.Name = "Host".toList := ⟨r, List.mem_cons_self r rest, hr⟩
      rw [hostHeaderLoop, if_pos hr, if_pos key]
    · have key : (∃ x ∈ r :: rest, x.Name = "Host".toList) ↔
          (∃ x ∈ rest, x.Name = "Host".toList) := by
        constructor
        · rintro ⟨x, hx, hn⟩
          rcases List.mem_cons.mp hx with rfl | hx
          · exact absurd hn hr
          · exact ⟨x, hx, hn⟩
        · rintro ⟨x, hx, hn⟩
          exact ⟨x, List.mem_cons_of_mem r hx, hn⟩
      rw [hostHeaderLoop, if_neg hr, ih]
      simp only [key]

theorem hostHeaderLoop_outputHTTP (s : AppSettings) (hs : List HeaderRule) :
    (hostHeaderLoop s hs).outputHTTP = s.outputHTTP := by
  rw [hostHeaderLoop_eq]; split <;> rfl

theorem hostHeaderLoop_outputBinary (s : AppSettings) (hs : List HeaderRule) :
    (hostHeaderLoop s hs).outputBinary = s.outputBinary := by
  rw [hostHeaderLoop_eq]; split <;> rfl

theorem hostHeaderLoop_outputKafkaConfig (s : AppSettings) (hs : List HeaderRule) :
    (hostHeaderLoop s hs).outputKafkaConfig = s.outputKafkaConfig := by
  rw [hostHeaderLoop_eq]; split <;> rfl

theorem hostHeaderLoop_inputKafkaConfig (s : AppSettings) (hs : List HeaderRule) :
    (hostHeaderLoop s hs).inputKafkaConfig = s.inputKafkaConfig := by
  rw [hostHeaderLoop_eq]; split <;> rfl

theorem hostHeaderLoop_OriginalHost (s : AppSettings) (hs : List HeaderRule)
    (h : ∃ r ∈ hs, r.Name = "Host".toList) :
    (hostHeaderLoop s hs).OutputHTTPConfig = { OriginalHost := true } := by
  rw [hostHeaderLoop_eq, if_pos h]

theorem hostHeaderLoop_idem (s : AppSettings) :
    hostHeaderLoop (hostHeaderLoop s s.modifierConfigHeaders)
      (hostHeaderLoop s s.modifierConfigHeaders).modifierConfigHeaders =
    hostHeaderLoop s s.modifierConfigHeaders := by
  rw [hostHeaderLoop_eq s]
  split
  · next h =>
    rw [hostHeaderLoop_eq]
    simp only [h, if_true]
  · next h =>
    rw [hostHeaderLoop_eq, if_neg h]

/-- The pass leaves `Settings` such that a second pass makes the same registrations. -/
theorem plan_hostHeaderLoop (Settings : AppSettings) :
    plan (hostHeaderLoop Settings Settings.modifierConfigHeaders) = plan Settings := by
  rw [hostHeaderLoop_eq]
  split
  · next h =>
    unfold plan
    simp only [hostHeaderLoop_eq, h, if_true]
    rfl
  · rfl

/-- What one pass that returns did: the new `Settings`, and the calls it added to the log. -/
theorem InitPlugins_calls (env : Env) (Settings Settings1 : AppSettings) (w w1 : World)
    (h : InitPlugins env Settings w = .ok (Settings1, w1)) :
    Settings1 = hostHeaderLoop Settings Settings.modifierConfigHeaders ∧
    registerAll env (plan Settings) w = .ok w1 ∧
    w1.calls = w.calls ++
      (plan Settings).map (fun ca => { constructor := ca.1, args := callArgs env ca.2 : Call }) := by
  rw [InitPlugins_eq_plan] at h
  cases hr : registerAll env (plan Settings) w with
  | error e =>
    rw [hr] at h
    cases h
  | ok w2 =>
    rw [hr] at h
    simp only [bind, Except.bind, pure, Except.pure, Except.ok.injEq, Prod.mk.injEq] at h
    obtain ⟨h1, h2⟩ := h
    subst h2
    exact ⟨h1.symm, rfl, registerAll_calls env _ w w2 hr⟩

/-- A pass from any registry is the pass from the empty registry, appended. -/
theorem InitPlugins_frame (env : Env) (Settings Settings1 : AppSettings) (w w1 : World)
    (h : InitPlugins env Settings w = .ok (Settings1, w1)) :
    ∃ d, InitPlugins env Settings World.empty = .ok (Settings1, d) ∧ w1 = w.append d := by
  obtain ⟨hs, hr, -⟩ := InitPlugins_calls env Settings Settings1 w w1 h
  rw [registerAll_frame] at hr
  cases hd : registerAll env (plan Settings) World.empty with
  | error e =>
    rw [hd] at hr
    cases hr
  | ok d =>
    rw [hd] at hr
    simp only [bind, Except.bind, pure, Except.pure, Except.ok.injEq] at hr
    refine ⟨d, ?_, hr.symm⟩
    rw [InitPlugins_eq_plan, hd, hs]
    rfl

/-- A pass that returned from the empty registry returns again, from the registry and the
settings it left or from the settings it started with, and appends the same entries. -/
theorem InitPlugins_again (env : Env) (Settings Settings1 t : AppSettings) (w1 : World)
    (h : InitPlugins env Settings World.empty = .ok (Settings1, w1))
    (ht : t = Settings ∨ t = Settings1) :
    InitPlugins env t w1 = .ok (Settings1, w1.append w1) := by
  obtain ⟨hs, hr, -⟩ := InitPlugins_calls env Settings Settings1 World.empty w1 h
  have hplan : plan t = plan Settings := by
    rcases ht with rfl | rfl
    · rfl
    · rw [hs, plan_hostHeaderLoop]
  have hfix : hostHeaderLoop t t.modifierConfigHeaders = Settings1 := by
    rcases ht with rfl | rfl
    · exact hs.symm
    · rw [hs]
      exact hostHeaderLoop_idem Settings
  rw [InitPlugins_eq_plan, hplan, registerAll_frame, hr, hfix]
  rfl

theorem registerAll_returns (env : Env) (hret : ∀ c args, ∃ p, env.construct c args = .ok p)
    (calls : List (Ctor × List Arg)) (w : World) : ∃ w1, registerAll env calls w = .ok w1 := by
  induction calls generalizing w with
  | nil => exact ⟨w, rfl⟩
  | cons ca rest ih =>
    obtain ⟨p, hp⟩ := hret ca.1 (callArgs env ca.2)
    simp only [registerAll, forRange] at ih ⊢
    rw [registerPlugin_of_construct env ca.1 ca.2 w p hp]
    exact ih _

/-- When no constructor panics, the pass returns. -/
theorem InitPlugins_returns (env : Env) (hret : ∀ c args, ∃ p, env.construct c args = .ok p)
    (Settings : AppSettings) (w : World) :
    ∃ Settings1 w1, InitPlugins env Settings w = .ok (Settings1, w1) := by
  obtain ⟨w1, h1⟩ := registerAll_returns env hret (plan Settings) w
  refine ⟨hostHeaderLoop Settings Settings.modifierConfigHeaders, w1, ?_⟩
  rw [InitPlugins_eq_plan, h1]
  rfl

theorem s3_or_file (b : Bool) :
    ((if b = true then Ctor.NewS3Output else Ctor.NewFileOutput) = Ctor.NewS3Output ∨
      (if b = true then Ctor.NewS3Output else Ctor.NewFileOutput) = Ctor.NewFileOutput) = True := by
  cases b <;> simp

theorem s3_iff (b : Bool) :
    ((if b = true then Ctor.NewS3Output else Ctor.NewFileOutput) = Ctor.NewS3Output) = (b = true) := by
  cases b <;> simp

theorem file_iff (b : Bool) :
    ((if b = true then Ctor.NewS3Output else Ctor.NewFileOutput) = Ctor.NewFileOutput) =
      (b = false) := by
  cases b <;> simp

theorem s3_file_ne (b : Bool) (c : Ctor) (h1 : c ≠ Ctor.NewS3Output)
    (h2 : c ≠ Ctor.NewFileOutput) :
    ((if b = true then Ctor.NewS3Output else Ctor.NewFileOutput) = c) = False := by
  cases b
  · simpa using fun e => h2 e.symm
  · simpa using fun e => h1 e.symm

/-! ## The claims on the population pass -/

/-- Claim C6: a pass that returns makes one file output registration for each entry of
`Settings.outputFile`, in order, with `NewS3Output` when the entry starts with `s3://` and
with `NewFileOutput` otherwise; so the `NewS3Output` calls are as many as the entries with
that start, and the `NewFileOutput` calls as many as the entries without it. -/
theorem InitPlugins_outputFile_constructors (env : Env) (Settings Settings1 : AppSettings)
    (w w1 : World) (h : InitPlugins env Settings w = .ok (Settings1, w1)) :
    ∃ newCalls, w1.calls = w.calls ++ newCalls ∧
      newCalls.filter (fun call =>
          call.constructor = Ctor.NewS3Output ∨ call.constructor = Ctor.NewFileOutput) =
        Settings.outputFile.map (fun path =>
          { constructor :=
              if HasPrefix path "s3://".toList then Ctor.NewS3Output else Ctor.NewFileOutput,
            args := [.str (beforeBar path), .ptr .OutputFileConfig .unread] : Call }) ∧
      newCalls.countP (fun call => call.constructor = Ctor.NewS3Output) =
        Settings.outputFile.countP (fun path => HasPrefix path "s3://".toList) ∧
      newCalls.countP (fun call => call.constructor = Ctor.NewFileOutput) =
        Settings.outputFile.countP (fun path => !HasPrefix path "s3://".toList) := by
  obtain ⟨-, -, hcalls⟩ := InitPlugins_calls env Settings Settings1 w w1 h
  refine ⟨_, hcalls, ?_, ?_, ?_⟩
  · simp only [plan, List.map_append, List.filter_append, List.map_map, List.filter_map,
      apply_ite (List.map _), apply_ite (List.filter _), List.map_cons, List.map_nil,
      List.filter_cons, List.filter_nil, Function.comp_def, s3_or_file]
    simp [callArgs, reflectString, addressOf]
  · simp only [plan, List.map_append, List.countP_append, List.map_map, List.countP_map,
      apply_ite (List.map _), apply_ite (List.countP _), List.map_cons, List.map_nil,
      List.countP_cons, List.countP_nil, Function.comp_def, s3_iff]
    simp
  · simp only [plan, List.map_append, List.countP_append, List.map_map, List.countP_map,
      apply_ite (List.map _), apply_ite (List.countP _), List.map_cons, List.map_nil,
      List.countP_cons, List.countP_nil, Function.comp_def, file_iff]
    simp

theorem InitPlugins_outputFile_constructors_witness :
    InitPlugins sampleEnv sampleSettings World.empty = .ok (sampleSettingsAfter, sampleAfter) ∧
    ∃ newCalls, sampleAfter.calls = World.empty.calls ++ newCalls ∧
      newCalls.filter (fun call =>
          call.constructor = Ctor.NewS3Output ∨ call.constructor = Ctor.NewFileOutput) =
        sampleSettings.outputFile.map (fun path =>
          { constructor :=
              if HasPrefix path "s3://".toList then Ctor.NewS3Output else Ctor.NewFileOutput,
            args := [.str (beforeBar path), .ptr .OutputFileConfig .unread] : Call }) ∧
      newCalls.countP (fun call => call.constructor = Ctor.NewS3Output) =
        sampleSettings.outputFile.countP (fun path => HasPrefix path "s3://".toList) ∧
      newCalls.countP (fun call => call.constructor = Ctor.NewFileOutput) =
        sampleSettings.outputFile.countP (fun path => !HasPrefix path "s3://".toList) :=
  ⟨by rfl, InitPlugins_outputFile_constructors sampleEnv sampleSettings sampleSettingsAfter
    World.empty sampleAfter (by rfl)⟩

/-- Claim C7: when some header rule is named `Host`, wherever it stands in the list, a pass
that returns leaves `OriginalHost` true, and its HTTP output registrations, one for each
entry of `outputHTTP`, each hand the constructor the shared configuration with
`OriginalHost` already true. -/
theorem InitPlugins_host_rule_sets_OriginalHost (env : Env) (Settings Settings1 : AppSettings)
    (w w1 : World)
    (hhost : ∃ rule ∈ Settings.modifierConfigHeaders, rule.Name = "Host".toList)
    (h : InitPlugins env Settings w = .ok (Settings1, w1)) :
    Settings1.OutputHTTPConfig.OriginalHost = true ∧
    ∃ newCalls, w1.calls = w.calls ++ newCalls ∧
      newCalls.filter (fun call => call.constructor = Ctor.NewHTTPOutput) =
        Settings.outputHTTP.map (fun options =>
          { constructor := Ctor.NewHTTPOutput,
            args := [.str (beforeBar options),
                     .ptr .OutputHTTPConfig (.http { OriginalHost := true })] : Call }) := by
  obtain ⟨hs, -, hcalls⟩ := InitPlugins_calls env Settings Settings1 w w1 h
  refine ⟨?_, _, hcalls, ?_⟩
  · rw [hs, hostHeaderLoop_OriginalHost _ _ hhost]
  · simp only [plan, List.map_append, List.filter_append, List.map_map, List.filter_map,
      apply_ite (List.map _), apply_ite (List.filter _), List.map_cons, List.map_nil,
      List.filter_cons, List.filter_nil, Function.comp_def,
      s3_file_ne _ Ctor.NewHTTPOutput (by decide) (by decide), hostHeaderLoop_outputHTTP]
    simp [callArgs, reflectString, addressOf, hostHeaderLoop_OriginalHost _ _ hhost]

theorem InitPlugins_host_rule_sets_OriginalHost_witness :
    (∃ rule ∈ sampleSettings.modifierConfigHeaders, rule.Name = "Host".toList) ∧
    InitPlugins sampleEnv sampleSettings World.empty = .ok (sampleSettingsAfter, sampleAfter) ∧
    sampleSettingsAfter.OutputHTTPConfig.OriginalHost = true ∧
    ∃ newCalls, sampleAfter.calls = World.empty.calls ++ newCalls ∧
      newCalls.filter (fun call => call.constructor = Ctor.NewHTTPOutput) =
        sampleSettings.outputHTTP.map (fun options =>
          { constructor := Ctor.NewHTTPOutput,
            args := [.str (beforeBar options),
                     .ptr .OutputHTTPConfig (.http { OriginalHost := true })] : Call }) :=
  ⟨by decide, by rfl,
    InitPlugins_host_rule_sets_OriginalHost sampleEnv sampleSettings sampleSettingsAfter
      World.empty sampleAfter (by decide) (by rfl)⟩

/-- Claim C8: a pass that returns registers the Kafka output once when the host and the
topic of `outputKafkaConfig` are both non-empty and not at all otherwise, and likewise the
Kafka input from `inputKafkaConfig`; the address the constructor receives is empty. -/
theorem InitPlugins_kafka_registrations (env : Env) (Settings Settings1 : AppSettings)
    (w w1 : World) (h : InitPlugins env Settings w = .ok (Settings1, w1)) :
    ∃ newCalls, w1.calls = w.calls ++ newCalls ∧
      newCalls.filter (fun call => call.constructor = Ctor.NewKafkaOutput) =
        (if Settings.outputKafkaConfig.host ≠ [] ∧ Settings.outputKafkaConfig.topic ≠ [] then
          [{ constructor := Ctor.NewKafkaOutput,
             args := [.str [], .ptr .outputKafkaConfig (.kafka Settings.outputKafkaConfig)] }]
         else []) ∧
      newCalls.filter (fun call => call.constructor = Ctor.NewKafkaInput) =
        (if Settings.inputKafkaConfig.host ≠ [] ∧ Settings.inputKafkaConfig.topic ≠ [] then
          [{ constructor := Ctor.NewKafkaInput,
             args := [.str [], .ptr .inputKafkaConfig (.kafka Settings.inputKafkaConfig)] }]
         else []) := by
  obtain ⟨-, -, hcalls⟩ := InitPlugins_calls env Settings Settings1 w w1 h
  refine ⟨_, hcalls, ?_, ?_⟩
  · simp only [plan, List.map_append, List.filter_append, List.map_map, List.filter_map,
      apply_ite (List.map _), apply_ite (List.filter _), List.map_cons, List.map_nil,
      List.filter_cons, List.filter_nil, Function.comp_def,
      s3_file_ne _ Ctor.NewKafkaOutput (by decide) (by decide),
      hostHeaderLoop_outputKafkaConfig, hostHeaderLoop_inputKafkaConfig]
    simp [callArgs, reflectString, addressOf, beforeBar, hostHeaderLoop_outputKafkaConfig]
  · simp only [plan, List.map_append, List.filter_append, List.map_map, List.filter_map,
      apply_ite (List.map _), apply_ite (List.filter _), List.map_cons, List.map_nil,
      List.filter_cons, List.filter_nil, Function.comp_def,
      s3_file_ne _ Ctor.NewKafkaInput (by decide) (by decide),
      hostHeaderLoop_outputKafkaConfig, hostHeaderLoop_inputKafkaConfig]
    simp [callArgs, reflectString, addressOf, beforeBar, hostHeaderLoop_inputKafkaConfig]

theorem InitPlugins_kafka_registrations_witness :
    InitPlugins sampleEnv sampleSettings World.empty = .ok (sampleSettingsAfter, sampleAfter) ∧
    ∃ newCalls, sampleAfter.calls = World.empty.calls ++ newCalls ∧
      newCalls.filter (fun call => call.constructor = Ctor.NewKafkaOutput) =
        (if sampleSettings.outputKafkaConfig.host ≠ [] ∧
            sampleSettings.outputKafkaConfig.topic ≠ [] then
          [{ constructor := Ctor.NewKafkaOutput,
             args := [.str [], .ptr .outputKafkaConfig
                        (.kafka sampleSettings.outputKafkaConfig)] }]
         else []) ∧
      newCalls.filter (fun call => call.constructor = Ctor.NewKafkaInput) =
        (if sampleSettings.inputKafkaConfig.host ≠ [] ∧
            sampleSettings.inputKafkaConfig.topic ≠ [] then
          [{ constructor := Ctor.NewKafkaInput,
             args := [.str [], .ptr .inputKafkaConfig
                        (.kafka sampleSettings.inputKafkaConfig)] }]
         else []) :=
  ⟨by rfl, InitPlugins_kafka_registrations sampleEnv sampleSettings sampleSettingsAfter
    World.empty sampleAfter (by rfl)⟩

/-- Claim C9: a pass only appends, so what `Inputs`, `Outputs` and `All` held before it is
an initial part of what they hold after it; and it is not idempotent: after a pass from the
empty registry, a second pass (with the settings the first one left, or with the settings
it started from) returns too and registers every entry again, so each of the three
sequences is itself twice over and has twice the length. -/
theorem InitPlugins_appends_and_repeats (env : Env) (Settings Settings1 : AppSettings)
    (w w1 : World) (h : InitPlugins env Settings w = .ok (Settings1, w1)) :
    (w.plugins.Inputs <+: w1.plugins.Inputs ∧ w.plugins.Outputs <+: w1.plugins.Outputs ∧
      w.plugins.All <+: w1.plugins.All) ∧
    (w = World.empty → ∀ t, t = Settings ∨ t = Settings1 →
      ∃ Settings2 w2, InitPlugins env t w1 = .ok (Settings2, w2) ∧
        w2.plugins.Inputs = w1.plugins.Inputs ++ w1.plugins.Inputs ∧
        w2.plugins.Outputs = w1.plugins.Outputs ++ w1.plugins.Outputs ∧
        w2.plugins.All = w1.plugins.All ++ w1.plugins.All ∧
        w2.plugins.Inputs.length = 2 * w1.plugins.Inputs.length ∧
        w2.plugins.Outputs.length = 2 * w1.plugins.Outputs.length ∧
        w2.plugins.All.length = 2 * w1.plugins.All.length) := by
  constructor
  · obtain ⟨d, -, hw⟩ := InitPlugins_frame env Settings Settings1 w w1 h
    subst hw
    exact ⟨⟨_, rfl⟩, ⟨_, rfl⟩, ⟨_, rfl⟩⟩
  · intro hw t ht
    subst hw
    refine ⟨Settings1, w1.append w1, InitPlugins_again env Settings Settings1 t w1 h ht, rfl, rfl,
      rfl, ?_, ?_, ?_⟩ <;>
    simp [World.append, two_mul]

theorem InitPlugins_appends_and_repeats_witness :
    InitPlugins sampleEnv sampleSettings World.empty = .ok (sampleSettingsAfter, sampleAfter) ∧
    (World.empty.plugins.Inputs <+: sampleAfter.plugins.Inputs ∧
      World.empty.plugins.Outputs <+: sampleAfter.plugins.Outputs ∧
      World.empty.plugins.All <+: sampleAfter.plugins.All) ∧
    (World.empty = World.empty → ∀ t, t = sampleSettings ∨ t = sampleSettingsAfter →
      ∃ Settings2 w2, InitPlugins sampleEnv t sampleAfter = .ok (Settings2, w2) ∧
        w2.plugins.Inputs = sampleAfter.plugins.Inputs ++ sampleAfter.plugins.Inputs ∧
        w2.plugins.Outputs = sampleAfter.plugins.Outputs ++ sampleAfter.plugins.Outputs ∧
        w2.plugins.All = sampleAfter.plugins.All ++ sampleAfter.plugins.All ∧
        w2.plugins.Inputs.length = 2 * sampleAfter.plugins.Inputs.length ∧
        w2.plugins.Outputs.length = 2 * sampleAfter.plugins.Outputs.length ∧
        w2.plugins.All.length = 2 * sampleAfter.plugins.All.length) :=
  ⟨by rfl, InitPlugins_appends_and_repeats sampleEnv sampleSettings sampleSettingsAfter
    World.empty sampleAfter (by rfl)⟩

end Gor
